import Mathlib

/-!
Verification development for the bitcore serial-connection manager.

The definitions below are a shallow embedding of the Rust sources:

* `src/serial.rs` — `SerialConnection` (connect/disconnect, the polling
  `Read` implementation with its fixed 100 ms inter-poll sleep, the single
  delegated `Write` attempt);
* `src/api.rs` — the mutex-guarded shared slot
  (`Arc<Mutex<Option<SerialConnection>>>`) with the public `connect`,
  `disconnect`, `read`, `write` entry points;
* `src/serial_types.rs` — `SerialPortInfo` and its JSON round-trip
  (`from_json` / `to_json`).

The external serial driver (the `serialport` crate) is modelled by explicit
environment records (`ConnectEnv`, `WriteDevice`, `ReadDevice`) whose fields
give the driver's response to each call the code makes.  Real time is
modelled discretely: each `thread::sleep(READ_POLL_SLEEP_MS)` advances the
clock by exactly 100 ms and everything else is instantaneous.  Rust's mutex
poisoning is modelled by a boolean `poisoned` input: `lock().unwrap()` on a
poisoned mutex panics, which the embedding records as the `Outcome.panicked`
result.  Rust's `drop` of an OS handle is modelled by erasing the handle
from an explicit ledger of open handles.
-/

/-- Kinds of `std::io::Error` the embedded code distinguishes or receives
from the driver. -/
inductive IoErrorKind where
  | notConnected
  | timedOut
  | busy
  | denied
  | other
deriving DecidableEq, Repr

/-- An embedded `std::io::Error`: a kind plus its message. -/
structure IoError where
  kind : IoErrorKind
  msg : String
deriving DecidableEq, Repr

/-- Result of a public API call.  `ok`/`err` embed Rust's `Ok`/`Err`;
`panicked` records that the call panicked (Rust `unwrap` on a poisoned
mutex), which is not a returned value at all. -/
inductive Outcome (α : Type) where
  | ok (a : α)
  | err (e : IoError)
  | panicked
deriving DecidableEq, Repr

/-- True exactly when the outcome is an `Err` result returned to the
caller. -/
def Outcome.isErr : Outcome α → Bool
  | .err _ => true
  | _ => false

/-- Lift a fallible serial-layer result into an API outcome. -/
def outcomeOfExcept : Except IoError α → Outcome α
  | .ok a => .ok a
  | .error e => .err e

instance {ε α : Type} [DecidableEq ε] [DecidableEq α] : DecidableEq (Except ε α)
  | .ok a, .ok b =>
    if h : a = b then .isTrue (by rw [h]) else .isFalse (by simp [h])
  | .ok _, .error _ => .isFalse (by simp)
  | .error _, .ok _ => .isFalse (by simp)
  | .error a, .error b =>
    if h : a = b then .isTrue (by rw [h]) else .isFalse (by simp [h])

/-- The embedded `SerialConnection` (serial.rs:13-15).  `id` is the OS
handle owned by the connection (`port`); `closeWarns` records whether the
underlying close of that handle would report a non-fatal warning (the code
closes via `drop`, which discards any such diagnostic). -/
structure SerialConnection where
  id : Nat
  closeWarns : Bool
deriving DecidableEq, Repr

/-- Driver responses for one call to `SerialConnection::connect`
(serial.rs:27-34): the result of `spbuild.open()` (a fresh OS handle on
success) and of the pre-flush `port.flush()`. -/
structure ConnectEnv where
  openRes : Except IoError Nat
  flushRes : Except IoError Unit
  closeWarns : Bool
deriving Repr

/-- Embeds `SerialConnection::connect` (serial.rs:27-34).  `openHandles` is
the ledger of OS handles currently open; `spbuild.open()?` adds the new
handle, and when `port.flush()?` fails the local `port` is dropped as the
error propagates, which closes (erases) the handle again. -/
def SerialConnection.connect (env : ConnectEnv) (openHandles : List Nat) :
    Except IoError SerialConnection × List Nat :=
  match env.openRes with
  | .error e => (.error e, openHandles)
  | .ok h =>
    match env.flushRes with
    | .error e => (.error e, ((h :: openHandles).erase h))
    | .ok _ => (.ok { id := h, closeWarns := env.closeWarns }, h :: openHandles)

/-- Embeds `SerialConnection::disconnect` (serial.rs:36-39): `drop(self.port)`
releases the handle and any close diagnostic is discarded, so the function
always returns `Ok(())` regardless of `closeWarns`. -/
def SerialConnection.disconnect (_conn : SerialConnection) : Except IoError Unit :=
  .ok ()

/-- Driver responses for write attempts: `attemptResult k` is what
`self.port.write(buf)` would return on the k-th attempt (0-based). -/
structure WriteDevice where
  attemptResult : Nat → Except IoError Nat

/-- Embeds `Write for SerialConnection` (serial.rs:190-192): exactly one
delegated `self.port.write(buf)` attempt whose result is returned
untouched.  The second component counts the write attempts performed. -/
def SerialConnection.write (dev : WriteDevice) (_data : List Nat) :
    Except IoError Nat × Nat :=
  (dev.attemptResult 0, 1)

/-- Polling read period, serial.rs:11 (`READ_POLL_SLEEP_MS`). -/
def READ_POLL_SLEEP_MS : Nat := 100

/-- Driver responses for the polling read loop: at loop iteration `i`,
`bytesToRead i` is the result of `self.port.bytes_to_read()` and
`readResult i` the result of `self.port.read(buf)` (queried only when the
loop performs a read at that iteration). -/
structure ReadDevice where
  bytesToRead : Nat → Except IoError Nat
  readResult : Nat → Except IoError Nat

/-- The timeout error built at serial.rs:182-185. -/
def timedOutErr : IoError := { kind := .timedOut, msg := "Read operation timed out" }

/-- Instrumented result of the polling read (serial.rs:146-186): the
returned `io::Result<usize>`, the elapsed milliseconds at the moment of
return (`retTime`), and how many `bytes_to_read` queries and `read` calls
were made on the device. -/
structure ReadOutcome where
  res : Except IoError Nat
  retTime : Nat
  queries : Nat
  reads : Nat
deriving DecidableEq, Repr

/-- Embeds the loop of `Read for SerialConnection` (serial.rs:146-186) at
iteration `i`.  The elapsed clock at the top of iteration `i` is
`READ_POLL_SLEEP_MS * i` (each iteration ends with a 100 ms sleep, polls
themselves are instantaneous).  The loop runs while `elapsed < timeout`;
inside, a `bytes_to_read` error is returned as an error, `bytes > 0`
triggers a single read whose error is returned and whose positive count is
returned immediately, while a zero-byte read (or zero bytes available)
falls through to the sleep and the next iteration. -/
def readLoop (dev : ReadDevice) (timeout : Nat) (i : Nat) : ReadOutcome :=
  if _h : READ_POLL_SLEEP_MS * i < timeout then
    match dev.bytesToRead i with
    | .error e =>
      { res := .error ⟨.other, "[core] error reading number of bytes to read>: " ++ e.msg⟩,
        retTime := READ_POLL_SLEEP_MS * i, queries := 1, reads := 0 }
    | .ok bytes =>
      if 0 < bytes then
        match dev.readResult i with
        | .error e =>
          { res := .error ⟨.other, "[core] error reading bytes>: " ++ e.msg⟩,
            retTime := READ_POLL_SLEEP_MS * i, queries := 1, reads := 1 }
        | .ok bytesRead =>
          if 0 < bytesRead then
            { res := .ok bytesRead, retTime := READ_POLL_SLEEP_MS * i,
              queries := 1, reads := 1 }
          else
            let r := readLoop dev timeout (i + 1)
            { res := r.res, retTime := r.retTime,
              queries := r.queries + 1, reads := r.reads + 1 }
      else
        let r := readLoop dev timeout (i + 1)
        { res := r.res, retTime := r.retTime,
          queries := r.queries + 1, reads := r.reads }
  else
    { res := .error timedOutErr, retTime := READ_POLL_SLEEP_MS * i,
      queries := 0, reads := 0 }
termination_by timeout - READ_POLL_SLEEP_MS * i
decreasing_by
  simp only [READ_POLL_SLEEP_MS] at *
  omega

/-- Embeds `Read for SerialConnection` (serial.rs:146-186) from the start of
the call: `start_time = Instant::now()` makes the initial elapsed time 0.
The `timeout` argument is the value of `self.timeout()` the loop compares
against. -/
def SerialConnection.read (dev : ReadDevice) (timeout : Nat) : ReadOutcome :=
  readLoop dev timeout 0

/-- The shared state behind the manager (`SharedConnection`, api.rs:14): the
slot `Option<SerialConnection>` together with the ledger of OS handles
currently open. -/
structure ManagerState where
  slot : Option SerialConnection
  openHandles : List Nat
deriving DecidableEq, Repr

/-- Embeds `api::connect` (api.rs:64-69).  The driver connect runs first; on
failure the `?` returns before the lock is touched.  Then
`shared_conn.lock().unwrap()` panics if the mutex is poisoned (the fresh
connection is dropped while unwinding, releasing its handle).  Otherwise
`*conn_lock = Some(conn)` overwrites the slot unconditionally; if a
connection was present it is dropped by the assignment, closing its
handle. -/
def api.connect (poisoned : Bool) (env : ConnectEnv) (st : ManagerState) :
    Outcome Unit × ManagerState :=
  match SerialConnection.connect env st.openHandles with
  | (.error e, hs) => (.err e, { st with openHandles := hs })
  | (.ok conn, hs) =>
    if poisoned then
      (.panicked, { st with openHandles := hs.erase conn.id })
    else
      match st.slot with
      | some old =>
        (.ok (), { slot := some conn, openHandles := hs.erase old.id })
      | none =>
        (.ok (), { slot := some conn, openHandles := hs })

/-- Embeds `api::disconnect` (api.rs:113-120): lock (panic when poisoned),
then `conn_lock.take()`; an occupied slot is emptied and the connection's
`disconnect` result is returned (its handle is released by the drop), an
empty slot yields the `NotConnected` error. -/
def api.disconnect (poisoned : Bool) (st : ManagerState) :
    Outcome Unit × ManagerState :=
  if poisoned then (.panicked, st)
  else
    match st.slot with
    | some conn =>
      (outcomeOfExcept (SerialConnection.disconnect conn),
       { slot := none, openHandles := st.openHandles.erase conn.id })
    | none => (.err { kind := .notConnected, msg := "Not connected" }, st)

/-- Instrumented result of `api::write`: the outcome, the manager state
after the call, and the number of underlying write attempts performed. -/
structure WriteCall where
  res : Outcome Nat
  state : ManagerState
  attempts : Nat

/-- Embeds `api::write` (api.rs:168-175): lock (panic when poisoned); with a
connection present, delegate to `SerialConnection::write` (one attempt,
result untouched); otherwise the `NotConnected` error.  The slot is only
accessed through `as_mut`, never replaced. -/
def api.write (poisoned : Bool) (dev : WriteDevice) (data : List Nat)
    (st : ManagerState) : WriteCall :=
  if poisoned then { res := .panicked, state := st, attempts := 0 }
  else
    match st.slot with
    | some _ =>
      match SerialConnection.write dev data with
      | (.ok n, a) => { res := .ok n, state := st, attempts := a }
      | (.error e, a) => { res := .err e, state := st, attempts := a }
    | none =>
      { res := .err { kind := .notConnected, msg := "Not connected" }, state := st,
        attempts := 0 }

/-- Instrumented result of `api::read`: the outcome, the manager state after
the call, and the device-interaction counts of the underlying poll loop. -/
structure ReadCall where
  res : Outcome Nat
  state : ManagerState
  queries : Nat
  reads : Nat

/-- Embeds `api::read` (api.rs:226-237): lock (panic when poisoned); with a
connection present, run the polling read with the given timeout; otherwise
the `NotConnected` error (note the lower-case message at api.rs:235).  The
slot is only accessed through `as_mut`, never replaced. -/
def api.read (poisoned : Bool) (dev : ReadDevice) (timeout : Nat)
    (st : ManagerState) : ReadCall :=
  if poisoned then { res := .panicked, state := st, queries := 0, reads := 0 }
  else
    match st.slot with
    | some _ =>
      let r := SerialConnection.read dev timeout
      { res := outcomeOfExcept r.res, state := st, queries := r.queries,
        reads := r.reads }
    | none =>
      { res := .err { kind := .notConnected, msg := "not connected" }, state := st,
        queries := 0, reads := 0 }

/-- One public operation on the shared slot, with the driver environment it
runs against. -/
inductive Op where
  | connectOp (env : ConnectEnv)
  | disconnectOp
  | writeOp (dev : WriteDevice) (data : List Nat)
  | readOp (dev : ReadDevice) (timeout : Nat)

/-- Whether the operation is a handle-level operation (read or write). -/
def Op.isHandleOp : Op → Bool
  | .writeOp _ _ => true
  | .readOp _ _ => true
  | _ => false

/-- The manager state after running one operation. -/
def applyOp (poisoned : Bool) (st : ManagerState) : Op → ManagerState
  | .connectOp env => (api.connect poisoned env st).2
  | .disconnectOp => (api.disconnect poisoned st).2
  | .writeOp dev data => (api.write poisoned dev data st).state
  | .readOp dev timeout => (api.read poisoned dev timeout st).state

/-- The manager state after running a sequence of operations. -/
def runOps (poisoned : Bool) (ops : List Op) (st : ManagerState) : ManagerState :=
  ops.foldl (applyOp poisoned) st

/-- Data bits of a port descriptor (serial_types.rs:7-12). -/
inductive DataBits where
  | Five
  | Six
  | Seven
  | Eight
deriving DecidableEq, Repr

/-- Parity of a port descriptor (serial_types.rs:27-31). -/
inductive Parity where
  | None
  | Odd
  | Even
deriving DecidableEq, Repr

/-- Stop bits of a port descriptor (serial_types.rs:45-48). -/
inductive StopBits where
  | One
  | Two
deriving DecidableEq, Repr

/-- Flow control of a port descriptor (serial_types.rs:60-64). -/
inductive FlowControl where
  | None
  | Software
  | Hardware
deriving DecidableEq, Repr

/-- The port descriptor (serial_types.rs:79-86), field for field. -/
structure SerialPortInfo where
  name : String
  speed : Nat
  data_bits : DataBits
  parity : Parity
  stop_bits : StopBits
  flow_control : FlowControl
deriving DecidableEq, Repr

/-- The double-quote character, written via its code point. -/
def quoteChar : Char := Char.ofNat 34

/-- The backslash character, written via its code point. -/
def backslashChar : Char := Char.ofNat 92

/-- The opening curly brace, written via its code point. -/
def braceOpen : Char := Char.ofNat 123

/-- The closing curly brace, written via its code point. -/
def braceClose : Char := Char.ofNat 125

/-- Lower-case hexadecimal digit for a value below 16, as serde_json
prints in its short `\u00XX` escapes. -/
def hexDigitChar (n : Nat) : Char :=
  Char.ofNat (if n < 10 then 48 + n else 87 + n)

/-- Modelled from the spec: serde_json's escaping of one character inside a
JSON string (the serializer behind `SerialPortInfo::to_json`,
serial_types.rs:121-133, is the external serde_json crate; the spec
describes the serialized form as a field-tagged, human-readable textual
encoding).  Double quote and backslash get two-character escapes, the five
controls with short names get those, other control characters get
`\u00XX`, and everything else is emitted verbatim. -/
def escapeChar (c : Char) : List Char :=
  if c = quoteChar then [backslashChar, quoteChar]
  else if c = backslashChar then [backslashChar, backslashChar]
  else if c = Char.ofNat 8 then [backslashChar, 'b']
  else if c = Char.ofNat 9 then [backslashChar, 't']
  else if c = Char.ofNat 10 then [backslashChar, 'n']
  else if c = Char.ofNat 12 then [backslashChar, 'f']
  else if c = Char.ofNat 13 then [backslashChar, 'r']
  else if c.toNat < 32 then
    [backslashChar, 'u', '0', '0', hexDigitChar (c.toNat / 16), hexDigitChar (c.toNat % 16)]
  else [c]

/-- Escape every character of a string body. -/
def escapeString : List Char → List Char
  | [] => []
  | c :: rest => escapeChar c ++ escapeString rest

/-- A JSON string literal: quote, escaped body, quote. -/
def encodeJString (s : List Char) : List Char :=
  quoteChar :: (escapeString s ++ [quoteChar])

/-- A JSON object key followed by the colon, as serde_json prints it. -/
def jsonKey (k : String) : List Char :=
  encodeJString k.data ++ [':']

/-- Decimal digits of a natural number, most significant first. -/
def natDigits (n : Nat) : List Char :=
  if n < 10 then [Char.ofNat (48 + n)]
  else natDigits (n / 10) ++ [Char.ofNat (48 + n % 10)]
termination_by n
decreasing_by
  exact Nat.div_lt_self (by omega) (by omega)

/-- Hexadecimal digit value of a character, if it is one. -/
def hexVal (c : Char) : Option Nat :=
  if 48 ≤ c.toNat ∧ c.toNat ≤ 57 then some (c.toNat - 48)
  else if 97 ≤ c.toNat ∧ c.toNat ≤ 102 then some (c.toNat - 87)
  else if 65 ≤ c.toNat ∧ c.toNat ≤ 70 then some (c.toNat - 55)
  else none

/-- Whether a character is a decimal digit. -/
def isDigitChar (c : Char) : Bool :=
  decide (48 ≤ c.toNat ∧ c.toNat ≤ 57)

/-- True when the list does not start with a decimal digit. -/
def headNotDigit : List Char → Bool
  | [] => true
  | c :: _ => !(isDigitChar c)

/-- Prepend a character to the string being parsed. -/
def consHead (c : Char) (r : Option (List Char × List Char)) :
    Option (List Char × List Char) :=
  match r with
  | some (s, rest) => some (c :: s, rest)
  | none => none

/-- Modelled from the spec: the JSON string-body parser behind
`SerialPortInfo::from_json` (serial_types.rs:108-119 delegates to the
external serde_json crate).  Reads characters up to the closing quote,
resolving the escape sequences that `escapeChar` can produce (plus the
standard `\/` escape); a bare control character, a truncated or unknown
escape, or a `\u` value that is not a Unicode scalar fails the parse. -/
def parseStringBody : List Char → Option (List Char × List Char)
  | [] => none
  | c :: rest =>
    if c = quoteChar then some ([], rest)
    else if c = backslashChar then
      match rest with
      | [] => none
      | e :: rest2 =>
        if e = quoteChar then consHead quoteChar (parseStringBody rest2)
        else if e = backslashChar then consHead backslashChar (parseStringBody rest2)
        else if e = '/' then consHead '/' (parseStringBody rest2)
        else if e = 'b' then consHead (Char.ofNat 8) (parseStringBody rest2)
        else if e = 't' then consHead (Char.ofNat 9) (parseStringBody rest2)
        else if e = 'n' then consHead (Char.ofNat 10) (parseStringBody rest2)
        else if e = 'f' then consHead (Char.ofNat 12) (parseStringBody rest2)
        else if e = 'r' then consHead (Char.ofNat 13) (parseStringBody rest2)
        else if e = 'u' then
          match rest2 with
          | h1 :: h2 :: h3 :: h4 :: rest3 =>
            match hexVal h1, hexVal h2, hexVal h3, hexVal h4 with
            | some a, some b, some c2, some d =>
              let v := ((a * 16 + b) * 16 + c2) * 16 + d
              if v.isValidChar then consHead (Char.ofNat v) (parseStringBody rest3)
              else none
            | _, _, _, _ => none
          | _ => none
        else none
    else if c.toNat < 32 then none
    else consHead c (parseStringBody rest)

/-- Parse a JSON string literal: an opening quote then the body. -/
def parseJString (l : List Char) : Option (List Char × List Char) :=
  match l with
  | [] => none
  | c :: rest => if c = quoteChar then parseStringBody rest else none

/-- One step of decimal accumulation. -/
def digStep (acc : Nat) (c : Char) : Nat :=
  10 * acc + (c.toNat - 48)

/-- Munch decimal digits, accumulating their value. -/
def parseNatAux : List Char → Nat → Nat × List Char
  | [], acc => (acc, [])
  | c :: rest, acc =>
    if isDigitChar c then parseNatAux rest (digStep acc c) else (acc, c :: rest)

/-- Parse a decimal number: at least one digit, maximal munch. -/
def parseNat (l : List Char) : Option (Nat × List Char) :=
  match l with
  | [] => none
  | c :: rest =>
    if isDigitChar c then some (parseNatAux (c :: rest) 0) else none

/-- Expect the given literal prefix, returning what follows it. -/
def expectLit : List Char → List Char → Option (List Char)
  | [], rest => some rest
  | _ :: _, [] => none
  | p :: ps, c :: cs => if c = p then expectLit ps cs else none

/-- serde's serialization of a `DataBits` value: the variant name. -/
def dataBitsJson : DataBits → List Char
  | .Five => "Five".data
  | .Six => "Six".data
  | .Seven => "Seven".data
  | .Eight => "Eight".data

/-- serde's deserialization of a `DataBits` variant name. -/
def dataBitsOfJson (s : List Char) : Option DataBits :=
  if s = "Five".data then some .Five
  else if s = "Six".data then some .Six
  else if s = "Seven".data then some .Seven
  else if s = "Eight".data then some .Eight
  else none

/-- serde's serialization of a `Parity` value: the variant name. -/
def parityJson : Parity → List Char
  | .None => "None".data
  | .Odd => "Odd".data
  | .Even => "Even".data

/-- serde's deserialization of a `Parity` variant name. -/
def parityOfJson (s : List Char) : Option Parity :=
  if s = "None".data then some .None
  else if s = "Odd".data then some .Odd
  else if s = "Even".data then some .Even
  else none

/-- serde's serialization of a `StopBits` value: the variant name. -/
def stopBitsJson : StopBits → List Char
  | .One => "One".data
  | .Two => "Two".data

/-- serde's deserialization of a `StopBits` variant name. -/
def stopBitsOfJson (s : List Char) : Option StopBits :=
  if s = "One".data then some .One
  else if s = "Two".data then some .Two
  else none

/-- serde's serialization of a `FlowControl` value: the variant name. -/
def flowControlJson : FlowControl → List Char
  | .None => "None".data
  | .Software => "Software".data
  | .Hardware => "Hardware".data

/-- serde's deserialization of a `FlowControl` variant name. -/
def flowControlOfJson (s : List Char) : Option FlowControl :=
  if s = "None".data then some .None
  else if s = "Software".data then some .Software
  else if s = "Hardware".data then some .Hardware
  else none

/-- Modelled from the spec: the exact character stream serde_json produces
for a `SerialPortInfo` — a single object with the six fields in declaration
order, enum values as variant-name strings, the name escaped as serde_json
escapes it. -/
def to_jsonChars (p : SerialPortInfo) : List Char :=
  (braceOpen :: jsonKey "name") ++
    (encodeJString p.name.data ++
      ((',' :: jsonKey "speed") ++
        (natDigits p.speed ++
          ((',' :: jsonKey "data_bits") ++
            (encodeJString (dataBitsJson p.data_bits) ++
              ((',' :: jsonKey "parity") ++
                (encodeJString (parityJson p.parity) ++
                  ((',' :: jsonKey "stop_bits") ++
                    (encodeJString (stopBitsJson p.stop_bits) ++
                      ((',' :: jsonKey "flow_control") ++
                        (encodeJString (flowControlJson p.flow_control) ++
                          [braceClose])))))))))))

/-- Embeds `SerialPortInfo::to_json` (serial_types.rs:121-133): serialize
and wrap the resulting string in `Some`; for this type serde_json's
serializer cannot fail, so the `Err` branch that would print and return
`None` is unreachable. -/
def SerialPortInfo.to_json (p : SerialPortInfo) : Option String :=
  some (String.mk (to_jsonChars p))

/-- One enum-valued field of the object: the comma, the key, a string
value, resolved to the enum variant. -/
def parseEnumField (key : String) (ofJson : List Char → Option α) (l : List Char) :
    Option (α × List Char) :=
  Option.bind (expectLit (',' :: jsonKey key) l) fun l1 =>
  Option.bind (parseJString l1) fun s =>
  Option.bind (ofJson s.1) fun a => some (a, s.2)

/-- Modelled from the spec: the serde_json deserializer for
`SerialPortInfo`, reading the canonical serialized form field by field.
Any mismatch — wrong punctuation or key, a malformed string or number, a
speed outside `u32`, an unknown enum variant, trailing characters — makes
the parse fail with `none`. -/
def fromJsonChars (l : List Char) : Option SerialPortInfo :=
  Option.bind (expectLit (braceOpen :: jsonKey "name") l) fun l1 =>
  Option.bind (parseJString l1) fun nm =>
  Option.bind (expectLit (',' :: jsonKey "speed") nm.2) fun l2 =>
  Option.bind (parseNat l2) fun sp =>
  if sp.1 < 4294967296 then
    Option.bind (parseEnumField "data_bits" dataBitsOfJson sp.2) fun db =>
    Option.bind (parseEnumField "parity" parityOfJson db.2) fun pa =>
    Option.bind (parseEnumField "stop_bits" stopBitsOfJson pa.2) fun sb =>
    Option.bind (parseEnumField "flow_control" flowControlOfJson sb.2) fun fc =>
    Option.bind (expectLit [braceClose] fc.2) fun l7 =>
    if l7 = [] then
      some { name := String.mk nm.1, speed := sp.1, data_bits := db.1,
             parity := pa.1, stop_bits := sb.1, flow_control := fc.1 }
    else none
  else none

/-- Embeds `SerialPortInfo::from_json` (serial_types.rs:108-119): parse the
string; a parse error is printed and turned into `None`. -/
def SerialPortInfo.from_json (s : String) : Option SerialPortInfo :=
  fromJsonChars s.data

theorem api_write_state (p : Bool) (dev : WriteDevice) (data : List Nat)
    (st : ManagerState) : (api.write p dev data st).state = st := by
  unfold api.write SerialConnection.write
  cases p <;> simp <;> cases st.slot <;> simp <;> cases dev.attemptResult 0 <;> simp

theorem api_read_state (p : Bool) (dev : ReadDevice) (timeout : Nat)
    (st : ManagerState) : (api.read p dev timeout st).state = st := by
  unfold api.read
  cases p <;> simp <;> cases st.slot <;> simp

/-- C1. The claim — and the doc comment of `api::connect` (api.rs:45-51,
"Returns an error if the connection is already established") — says a
second `connect` against an occupied slot fails with `AlreadyConnected` and
leaves the existing connection untouched.  The code checks nothing: with
the slot holding the connection on handle 0, a `connect` whose driver open
yields handle 1 returns `Ok(())` and silently replaces the slot's
connection (the old one is dropped by the assignment).  This theorem
evaluates the embedded code at that failing input. -/
theorem connect_overwrites_live_slot :
    api.connect false ⟨.ok 1, .ok (), false⟩ ⟨some ⟨0, false⟩, [0]⟩ =
      (.ok (), ⟨some ⟨1, false⟩, [1]⟩) := by
  decide

/-- C2, counterexample. The claim says `write(data, maxRetries=N)` performs
N+1 attempts when every attempt fails; with N = 1 that demands 2 attempts.
The code has no retry parameter and no retry loop: against a device whose
every write attempt fails, a connected `write` performs exactly 1 attempt,
not 2. -/
theorem write_single_attempt_counterexample :
    (api.write false ⟨fun _ => .error ⟨.other, "device write error"⟩⟩ [1, 2]
        ⟨some ⟨0, false⟩, [0]⟩).attempts ≠ 1 + 1 := by
  decide

/-- C2, amended. On a connected slot, `write` performs exactly one
underlying write attempt, returns that attempt's result untouched (the
error is propagated, not wrapped in any `WriteFailed`), makes no further
attempts whatever the outcome, and leaves the manager state unchanged. -/
theorem write_one_attempt (dev : WriteDevice) (data : List Nat)
    (st : ManagerState) (c : SerialConnection) (h : st.slot = some c) :
    (api.write false dev data st).attempts = 1 ∧
    (api.write false dev data st).res = outcomeOfExcept (dev.attemptResult 0) ∧
    (api.write false dev data st).state = st := by
  unfold api.write SerialConnection.write
  rw [h]
  cases hr : dev.attemptResult 0 <;> simp [outcomeOfExcept, hr]

theorem write_one_attempt_witness :
    (api.write false ⟨fun _ => .ok 3⟩ [7] ⟨some ⟨0, false⟩, [0]⟩).attempts = 1 ∧
    (api.write false ⟨fun _ => .ok 3⟩ [7] ⟨some ⟨0, false⟩, [0]⟩).res =
      outcomeOfExcept ((⟨fun _ => .ok 3⟩ : WriteDevice).attemptResult 0) ∧
    (api.write false ⟨fun _ => .ok 3⟩ [7] ⟨some ⟨0, false⟩, [0]⟩).state =
      ⟨some ⟨0, false⟩, [0]⟩ :=
  write_one_attempt ⟨fun _ => .ok 3⟩ [7] ⟨some ⟨0, false⟩, [0]⟩ ⟨0, false⟩ rfl

/-- C3, counterexample. The claim says an operation whose guard acquisition
fails because of poisoning surfaces a `LockFailure` error result to its
caller.  The code calls `lock().unwrap()`: on a poisoned mutex, `read` (on
a connected slot, device irrelevant) panics — the call produces no error
result at all. -/
theorem poisoned_read_not_error :
    ((api.read true ⟨fun _ => .ok 0, fun _ => .ok 0⟩ 100
        ⟨some ⟨0, false⟩, [0]⟩).res).isErr = false ∧
    (api.read true ⟨fun _ => .ok 0, fun _ => .ok 0⟩ 100
        ⟨some ⟨0, false⟩, [0]⟩).res = .panicked := by
  constructor <;> rfl

/-- C3, amended. When the mutual-exclusion guard is poisoned, `disconnect`,
`write` and `read` panic (the `unwrap` propagates the poisoning as a panic
rather than returning a `LockFailure` error result, and rather than
ignoring it); `connect` reaches the lock — and panics — only after the
driver connect has succeeded, since its driver errors return before the
lock is touched. -/
theorem poisoned_ops_panic :
    (∀ st, (api.disconnect true st).1 = .panicked) ∧
    (∀ dev data st, (api.write true dev data st).res = .panicked) ∧
    (∀ dev timeout st, (api.read true dev timeout st).res = .panicked) ∧
    (∀ env st h, env.openRes = .ok h → env.flushRes = .ok () →
      (api.connect true env st).1 = .panicked) := by
  refine ⟨fun st => rfl, fun dev data st => rfl, fun dev timeout st => rfl,
    fun env st h hopen hflush => ?_⟩
  unfold api.connect SerialConnection.connect
  rw [hopen, hflush]
  rfl

theorem poisoned_ops_panic_witness :
    (api.connect true ⟨.ok 4, .ok (), false⟩ ⟨none, []⟩).1 = .panicked :=
  poisoned_ops_panic.2.2.2 ⟨.ok 4, .ok (), false⟩ ⟨none, []⟩ 4 rfl rfl

/-- C6. `disconnect` on an empty slot fails with the `NotConnected` error
and changes nothing; on an occupied slot it always succeeds and empties the
slot (releasing the connection's handle), whatever close diagnostic the
underlying handle would report — the `drop` in
`SerialConnection::disconnect` discards it (`closeWarns` is arbitrary in
the second part). -/
theorem disconnect_spec :
    (∀ st : ManagerState, st.slot = none →
      api.disconnect false st = (.err ⟨.notConnected, "Not connected"⟩, st)) ∧
    (∀ (st : ManagerState) (c : SerialConnection), st.slot = some c →
      api.disconnect false st = (.ok (), ⟨none, st.openHandles.erase c.id⟩)) := by
  constructor
  · intro st h
    unfold api.disconnect
    rw [h]
    rfl
  · intro st c h
    unfold api.disconnect
    rw [h]
    rfl

theorem disconnect_spec_witness :
    api.disconnect false ⟨none, [9]⟩ =
      (.err ⟨.notConnected, "Not connected"⟩, ⟨none, [9]⟩) ∧
    api.disconnect false ⟨some ⟨5, true⟩, [5]⟩ =
      (.ok (), ⟨none, List.erase [5] 5⟩) :=
  ⟨disconnect_spec.1 ⟨none, [9]⟩ rfl,
   disconnect_spec.2 ⟨some ⟨5, true⟩, [5]⟩ ⟨5, true⟩ rfl⟩

/-- C7. `connect` is atomic on failure: when `spbuild.open()` fails, the
driver's error is returned and nothing changes; when the pre-flush fails,
the driver's flush error is returned, the partially-opened handle is
released (the ledger of open handles is restored), no connection is
produced, and the slot is untouched — in both cases the whole call returns
`(Err(driver diagnostic), st)`. -/
theorem connect_failure_atomic :
    (∀ (env : ConnectEnv) (st : ManagerState) (e : IoError),
      env.openRes = .error e → api.connect false env st = (.err e, st)) ∧
    (∀ (env : ConnectEnv) (st : ManagerState) (h : Nat) (e : IoError),
      env.openRes = .ok h → env.flushRes = .error e →
      api.connect false env st = (.err e, st)) := by
  constructor
  · intro env st e hopen
    unfold api.connect SerialConnection.connect
    rw [hopen]
  · intro env st h e hopen hflush
    unfold api.connect SerialConnection.connect
    rw [hopen, hflush]
    simp [List.erase_cons_head]

theorem connect_failure_atomic_witness :
    api.connect false ⟨.error ⟨.busy, "device busy"⟩, .ok (), false⟩ ⟨none, [3]⟩ =
      (.err ⟨.busy, "device busy"⟩, ⟨none, [3]⟩) ∧
    api.connect false ⟨.ok 7, .error ⟨.other, "flush failed"⟩, false⟩ ⟨none, [3]⟩ =
      (.err ⟨.other, "flush failed"⟩, ⟨none, [3]⟩) :=
  ⟨connect_failure_atomic.1 ⟨.error ⟨.busy, "device busy"⟩, .ok (), false⟩
      ⟨none, [3]⟩ ⟨.busy, "device busy"⟩ rfl,
   connect_failure_atomic.2 ⟨.ok 7, .error ⟨.other, "flush failed"⟩, false⟩
      ⟨none, [3]⟩ 7 ⟨.other, "flush failed"⟩ rfl rfl⟩

theorem readLoop_no_bytes (dev : ReadDevice) (hdev : ∀ i, dev.bytesToRead i = .ok 0)
    (timeout : Nat) :
    ∀ n i, timeout ≤ READ_POLL_SLEEP_MS * i + READ_POLL_SLEEP_MS * n →
      READ_POLL_SLEEP_MS * i < timeout + READ_POLL_SLEEP_MS →
      (readLoop dev timeout i).res = .error timedOutErr ∧
      timeout ≤ (readLoop dev timeout i).retTime ∧
      (readLoop dev timeout i).retTime < timeout + READ_POLL_SLEEP_MS := by
  intro n
  induction n with
  | zero =>
    intro i h1 h2
    rw [Nat.mul_zero, Nat.add_zero] at h1
    have hnot : ¬ READ_POLL_SLEEP_MS * i < timeout := Nat.not_lt.mpr h1
    rw [readLoop, dif_neg hnot]
    exact ⟨rfl, h1, h2⟩
  | succ n ih =>
    intro i h1 h2
    have e1 : READ_POLL_SLEEP_MS * (i + 1) =
        READ_POLL_SLEEP_MS * i + READ_POLL_SLEEP_MS := by ring
    have e2 : READ_POLL_SLEEP_MS * (n + 1) =
        READ_POLL_SLEEP_MS * n + READ_POLL_SLEEP_MS := by ring
    by_cases hlt : READ_POLL_SLEEP_MS * i < timeout
    · rw [readLoop, dif_pos hlt, hdev i]
      simp only [Nat.lt_irrefl, if_false]
      exact ih (i + 1) (by omega) (by omega)
    · rw [readLoop, dif_neg hlt]
      exact ⟨rfl, Nat.not_lt.mp hlt, h2⟩

/-- C4. Against a device that never reports available bytes, a read with
timeout T fails with the `TimedOut` error, returning no earlier than T
after the call began and no later than T plus one poll interval (the fixed
100 ms inter-poll sleep).  Time is modelled discretely: each sleep advances
the clock by exactly `READ_POLL_SLEEP_MS`, polls are instantaneous. -/
theorem read_timeout_bounds (timeout : Nat) (dev : ReadDevice)
    (hdev : ∀ i, dev.bytesToRead i = .ok 0) :
    (SerialConnection.read dev timeout).res = .error timedOutErr ∧
    timeout ≤ (SerialConnection.read dev timeout).retTime ∧
    (SerialConnection.read dev timeout).retTime ≤ timeout + READ_POLL_SLEEP_MS := by
  have hp : READ_POLL_SLEEP_MS = 100 := rfl
  have key := readLoop_no_bytes dev hdev timeout timeout 0
    (by rw [Nat.mul_zero, Nat.zero_add, hp]; omega)
    (by rw [Nat.mul_zero]; omega)
  exact ⟨key.1, key.2.1, Nat.le_of_lt key.2.2⟩

theorem read_timeout_bounds_witness :
    (SerialConnection.read ⟨fun _ => .ok 0, fun _ => .ok 0⟩ 250).res = .error timedOutErr ∧
    250 ≤ (SerialConnection.read ⟨fun _ => .ok 0, fun _ => .ok 0⟩ 250).retTime ∧
    (SerialConnection.read ⟨fun _ => .ok 0, fun _ => .ok 0⟩ 250).retTime ≤
      250 + READ_POLL_SLEEP_MS :=
  read_timeout_bounds 250 ⟨fun _ => .ok 0, fun _ => .ok 0⟩ (fun _ => rfl)

/-- C5. Slot occupancy is an invariant of read and write: `write` and
`read` return the manager state unchanged whether they succeed, fail or
panic; `connect` never empties an occupied slot (its only occupancy change
is none to some); `disconnect` never fills an empty slot (its only
occupancy change is some to none); and any sequence made of read and write
operations leaves the manager state exactly as it was. -/
theorem slot_occupancy_invariant :
    (∀ p dev data st, (api.write p dev data st).state = st) ∧
    (∀ p dev timeout st, (api.read p dev timeout st).state = st) ∧
    (∀ p env st, st.slot.isSome = true →
      ((api.connect p env st).2).slot.isSome = true) ∧
    (∀ p st, ((api.disconnect p st).2).slot.isSome = true →
      st.slot.isSome = true) ∧
    (∀ p ops st, (∀ op ∈ ops, op.isHandleOp = true) → runOps p ops st = st) := by
  refine ⟨api_write_state, api_read_state, ?_, ?_, ?_⟩
  · intro p env st hsome
    unfold api.connect
    rcases hE : SerialConnection.connect env st.openHandles with ⟨r, hs⟩
    cases r with
    | error e => simpa using hsome
    | ok conn =>
      cases p
      · cases hslot : st.slot with
        | none => rw [hslot] at hsome; simp at hsome
        | some old => simp [hslot]
      · simpa using hsome
  · intro p st
    cases p
    · unfold api.disconnect
      cases hslot : st.slot with
      | none => simp [hslot]
      | some c => simp [hslot]
    · intro h; simpa [api.disconnect] using h
  · intro p ops
    induction ops with
    | nil => intro st _; rfl
    | cons op rest ih =>
      intro st hops
      have h1 : op.isHandleOp = true := hops op (List.mem_cons_self op rest)
      have hrest : ∀ o ∈ rest, o.isHandleOp = true :=
        fun o ho => hops o (List.mem_cons_of_mem op ho)
      cases op with
      | connectOp env => simp [Op.isHandleOp] at h1
      | disconnectOp => simp [Op.isHandleOp] at h1
      | writeOp dev data =>
        show runOps p rest (applyOp p st (Op.writeOp dev data)) = st
        rw [show applyOp p st (Op.writeOp dev data) = st from api_write_state p dev data st]
        exact ih st hrest
      | readOp dev timeout =>
        show runOps p rest (applyOp p st (Op.readOp dev timeout)) = st
        rw [show applyOp p st (Op.readOp dev timeout) = st from api_read_state p dev timeout st]
        exact ih st hrest

theorem slot_occupancy_invariant_witness :
    runOps false
      [Op.writeOp ⟨fun _ => .ok 1⟩ [1], Op.readOp ⟨fun _ => .ok 0, fun _ => .ok 0⟩ 0]
      ⟨some ⟨0, false⟩, [0]⟩ = ⟨some ⟨0, false⟩, [0]⟩ :=
  slot_occupancy_invariant.2.2.2.2 false
    [Op.writeOp ⟨fun _ => .ok 1⟩ [1], Op.readOp ⟨fun _ => .ok 0, fun _ => .ok 0⟩ 0]
    ⟨some ⟨0, false⟩, [0]⟩
    (by intro op h
        rcases List.mem_cons.mp h with rfl | h2
        · rfl
        · rcases List.mem_cons.mp h2 with rfl | h3
          · rfl
          · cases h3)

/-- C9. Inside the polling loop, at any iteration still within the timeout
where the device reports bytes available: a single non-blocking read that
yields at least one byte makes the loop return immediately with that byte
count (exactly one availability query and one read in total, at that
iteration's clock), while a read that yields zero bytes is not an error and
not end-of-stream — the overall result is exactly that of resuming the poll
loop at the next iteration. -/
theorem read_poll_step (dev : ReadDevice) (timeout i bytes k : Nat)
    (hlt : READ_POLL_SLEEP_MS * i < timeout)
    (havail : dev.bytesToRead i = .ok bytes) (hpos : 0 < bytes) :
    (dev.readResult i = .ok k → 0 < k →
      readLoop dev timeout i = ⟨.ok k, READ_POLL_SLEEP_MS * i, 1, 1⟩) ∧
    (dev.readResult i = .ok 0 →
      (readLoop dev timeout i).res = (readLoop dev timeout (i + 1)).res) := by
  constructor
  · intro hread hk
    rw [readLoop, dif_pos hlt, havail]
    simp [hpos, hread, hk]
  · intro hread
    rw [readLoop, dif_pos hlt, havail]
    simp [hpos, hread]

theorem read_poll_step_witness :
    (readLoop ⟨fun _ => .ok 1, fun j => if j = 0 then .ok 0 else .ok 3⟩ 300 0).res =
    (readLoop ⟨fun _ => .ok 1, fun j => if j = 0 then .ok 0 else .ok 3⟩ 300 1).res :=
  (read_poll_step ⟨fun _ => .ok 1, fun j => if j = 0 then .ok 0 else .ok 3⟩
    300 0 1 3 (by decide) rfl (by decide)).2 rfl

/-- C10. A read invoked with a zero timeout on a connected slot fails with
the `TimedOut` error immediately (the `elapsed < timeout` check fails
before the first poll), performing no availability query and no read on the
handle, whatever the device would have reported, and leaves the manager
state unchanged. -/
theorem read_zero_timeout (dev : ReadDevice) (st : ManagerState)
    (c : SerialConnection) (h : st.slot = some c) :
    (api.read false dev 0 st).res = .err timedOutErr ∧
    (api.read false dev 0 st).queries = 0 ∧
    (api.read false dev 0 st).reads = 0 ∧
    (api.read false dev 0 st).state = st := by
  have hL : readLoop dev 0 0 = ⟨.error timedOutErr, 0, 0, 0⟩ := by
    rw [readLoop, dif_neg (by simp)]
    rfl
  unfold api.read SerialConnection.read
  rw [h, hL]
  exact ⟨rfl, rfl, rfl, rfl⟩

theorem read_zero_timeout_witness :
    (api.read false ⟨fun _ => .ok 7, fun _ => .ok 7⟩ 0 ⟨some ⟨0, false⟩, [0]⟩).res =
      .err timedOutErr ∧
    (api.read false ⟨fun _ => .ok 7, fun _ => .ok 7⟩ 0 ⟨some ⟨0, false⟩, [0]⟩).queries = 0 ∧
    (api.read false ⟨fun _ => .ok 7, fun _ => .ok 7⟩ 0 ⟨some ⟨0, false⟩, [0]⟩).reads = 0 ∧
    (api.read false ⟨fun _ => .ok 7, fun _ => .ok 7⟩ 0 ⟨some ⟨0, false⟩, [0]⟩).state =
      ⟨some ⟨0, false⟩, [0]⟩ :=
  read_zero_timeout ⟨fun _ => .ok 7, fun _ => .ok 7⟩ ⟨some ⟨0, false⟩, [0]⟩ ⟨0, false⟩ rfl
theorem expectLit_append : ∀ pat rest : List Char, expectLit pat (pat ++ rest) = some rest := by
  intro pat
  induction pat with
  | nil => intro rest; rfl
  | cons p ps ih => intro rest; simp [expectLit, ih]

theorem hexVal_hexDigitChar (m : Nat) (h : m < 16) : hexVal (hexDigitChar m) = some m := by
  interval_cases m <;> decide

theorem charToNat_ofNat (n : Nat) (h : n < 55296) : (Char.ofNat n).toNat = n := by
  have hv : n.isValidChar := Or.inl h
  simp [Char.ofNat, hv, Char.toNat, Char.ofNatAux, UInt32.toNat, BitVec.toNat_ofNatLt]


theorem psb_cons (c : Char) (l : List Char) (h1 : ¬ c = quoteChar)
    (h2 : ¬ c = backslashChar) (h3 : ¬ c.toNat < 32) :
    parseStringBody (c :: l) = consHead c (parseStringBody l) := by
  rw [parseStringBody.eq_def]
  simp [h1, h2, h3]

theorem psb_quote (l : List Char) :
    parseStringBody (quoteChar :: l) = some ([], l) := by
  rw [parseStringBody.eq_def]
  simp

theorem psb_esc_quote (l : List Char) :
    parseStringBody (backslashChar :: quoteChar :: l) =
      consHead quoteChar (parseStringBody l) := by
  rw [parseStringBody.eq_def]
  simp [show ¬ backslashChar = quoteChar by decide]

theorem psb_esc_backslash (l : List Char) :
    parseStringBody (backslashChar :: backslashChar :: l) =
      consHead backslashChar (parseStringBody l) := by
  rw [parseStringBody.eq_def]
  simp [show ¬ backslashChar = quoteChar by decide]

theorem psb_esc_b (l : List Char) :
    parseStringBody (backslashChar :: 'b' :: l) =
      consHead (Char.ofNat 8) (parseStringBody l) := by
  rw [parseStringBody.eq_def]
  simp [show ¬ backslashChar = quoteChar by decide, show ¬ 'b' = quoteChar by decide,
    show ¬ 'b' = backslashChar by decide, show ¬ 'b' = '/' by decide]

theorem psb_esc_t (l : List Char) :
    parseStringBody (backslashChar :: 't' :: l) =
      consHead (Char.ofNat 9) (parseStringBody l) := by
  rw [parseStringBody.eq_def]
  simp [show ¬ backslashChar = quoteChar by decide, show ¬ 't' = quoteChar by decide,
    show ¬ 't' = backslashChar by decide, show ¬ 't' = '/' by decide,
    show ¬ 't' = 'b' by decide]

theorem psb_esc_n (l : List Char) :
    parseStringBody (backslashChar :: 'n' :: l) =
      consHead (Char.ofNat 10) (parseStringBody l) := by
  rw [parseStringBody.eq_def]
  simp [show ¬ backslashChar = quoteChar by decide, show ¬ 'n' = quoteChar by decide,
    show ¬ 'n' = backslashChar by decide, show ¬ 'n' = '/' by decide,
    show ¬ 'n' = 'b' by decide, show ¬ 'n' = 't' by decide]

theorem psb_esc_f (l : List Char) :
    parseStringBody (backslashChar :: 'f' :: l) =
      consHead (Char.ofNat 12) (parseStringBody l) := by
  rw [parseStringBody.eq_def]
  simp [show ¬ backslashChar = quoteChar by decide, show ¬ 'f' = quoteChar by decide,
    show ¬ 'f' = backslashChar by decide, show ¬ 'f' = '/' by decide,
    show ¬ 'f' = 'b' by decide, show ¬ 'f' = 't' by decide, show ¬ 'f' = 'n' by decide]

theorem psb_esc_r (l : List Char) :
    parseStringBody (backslashChar :: 'r' :: l) =
      consHead (Char.ofNat 13) (parseStringBody l) := by
  rw [parseStringBody.eq_def]
  simp [show ¬ backslashChar = quoteChar by decide, show ¬ 'r' = quoteChar by decide,
    show ¬ 'r' = backslashChar by decide, show ¬ 'r' = '/' by decide,
    show ¬ 'r' = 'b' by decide, show ¬ 'r' = 't' by decide, show ¬ 'r' = 'n' by decide,
    show ¬ 'r' = 'f' by decide]

theorem psb_esc_u (h1 h2 h3 h4 : Char) (a b c d : Nat) (l : List Char)
    (e1 : hexVal h1 = some a) (e2 : hexVal h2 = some b) (e3 : hexVal h3 = some c)
    (e4 : hexVal h4 = some d) (hval : (((a * 16 + b) * 16 + c) * 16 + d).isValidChar) :
    parseStringBody (backslashChar :: 'u' :: h1 :: h2 :: h3 :: h4 :: l) =
      consHead (Char.ofNat (((a * 16 + b) * 16 + c) * 16 + d)) (parseStringBody l) := by
  rw [parseStringBody.eq_def]
  simp [show ¬ backslashChar = quoteChar by decide, show ¬ 'u' = quoteChar by decide,
    show ¬ 'u' = backslashChar by decide, show ¬ 'u' = '/' by decide,
    show ¬ 'u' = 'b' by decide, show ¬ 'u' = 't' by decide, show ¬ 'u' = 'n' by decide,
    show ¬ 'u' = 'f' by decide, show ¬ 'u' = 'r' by decide, e1, e2, e3, e4, hval]

theorem parseStringBody_escapeString : ∀ s rest : List Char,
    parseStringBody (escapeString s ++ (quoteChar :: rest)) = some (s, rest) := by
  intro s
  induction s with
  | nil =>
    intro rest
    show parseStringBody (quoteChar :: rest) = some ([], rest)
    exact psb_quote rest
  | cons c s ih =>
    intro rest
    show parseStringBody ((escapeChar c ++ escapeString s) ++ (quoteChar :: rest)) = _
    rw [List.append_assoc]
    by_cases hq : c = quoteChar
    · subst hq
      rw [show escapeChar quoteChar = [backslashChar, quoteChar] from by decide]
      show parseStringBody
        (backslashChar :: quoteChar :: (escapeString s ++ (quoteChar :: rest))) = _
      rw [psb_esc_quote, ih]
      rfl
    by_cases hb : c = backslashChar
    · subst hb
      rw [show escapeChar backslashChar = [backslashChar, backslashChar] from by decide]
      show parseStringBody
        (backslashChar :: backslashChar :: (escapeString s ++ (quoteChar :: rest))) = _
      rw [psb_esc_backslash, ih]
      rfl
    by_cases h8 : c = Char.ofNat 8
    · subst h8
      rw [show escapeChar (Char.ofNat 8) = [backslashChar, 'b'] from by decide]
      show parseStringBody
        (backslashChar :: 'b' :: (escapeString s ++ (quoteChar :: rest))) = _
      rw [psb_esc_b, ih]
      rfl
    by_cases h9 : c = Char.ofNat 9
    · subst h9
      rw [show escapeChar (Char.ofNat 9) = [backslashChar, 't'] from by decide]
      show parseStringBody
        (backslashChar :: 't' :: (escapeString s ++ (quoteChar :: rest))) = _
      rw [psb_esc_t, ih]
      rfl
    by_cases h10 : c = Char.ofNat 10
    · subst h10
      rw [show escapeChar (Char.ofNat 10) = [backslashChar, 'n'] from by decide]
      show parseStringBody
        (backslashChar :: 'n' :: (escapeString s ++ (quoteChar :: rest))) = _
      rw [psb_esc_n, ih]
      rfl
    by_cases h12 : c = Char.ofNat 12
    · subst h12
      rw [show escapeChar (Char.ofNat 12) = [backslashChar, 'f'] from by decide]
      show parseStringBody
        (backslashChar :: 'f' :: (escapeString s ++ (quoteChar :: rest))) = _
      rw [psb_esc_f, ih]
      rfl
    by_cases h13 : c = Char.ofNat 13
    · subst h13
      rw [show escapeChar (Char.ofNat 13) = [backslashChar, 'r'] from by decide]
      show parseStringBody
        (backslashChar :: 'r' :: (escapeString s ++ (quoteChar :: rest))) = _
      rw [psb_esc_r, ih]
      rfl
    by_cases hlow : c.toNat < 32
    · rw [show escapeChar c =
          [backslashChar, 'u', '0', '0', hexDigitChar (c.toNat / 16), hexDigitChar (c.toNat % 16)]
        from by simp [escapeChar, hq, hb, h8, h9, h10, h12, h13, hlow]]
      show parseStringBody
        (backslashChar :: 'u' :: '0' :: '0' :: hexDigitChar (c.toNat / 16) ::
          hexDigitChar (c.toNat % 16) :: (escapeString s ++ (quoteChar :: rest))) = _
      rw [psb_esc_u '0' '0' (hexDigitChar (c.toNat / 16)) (hexDigitChar (c.toNat % 16))
        0 0 (c.toNat / 16) (c.toNat % 16) _ (by decide) (by decide)
        (hexVal_hexDigitChar _ (by omega)) (hexVal_hexDigitChar _ (by omega))
        (by
          have hv : ((0 * 16 + 0) * 16 + c.toNat / 16) * 16 + c.toNat % 16 = c.toNat := by
            omega
          rw [hv]
          exact Or.inl (by omega))]
      have hv : ((0 * 16 + 0) * 16 + c.toNat / 16) * 16 + c.toNat % 16 = c.toNat := by
        omega
      rw [hv, Char.ofNat_toNat, ih]
      rfl
    · rw [show escapeChar c = [c] from by
        simp [escapeChar, hq, hb, h8, h9, h10, h12, h13, hlow]]
      show parseStringBody (c :: (escapeString s ++ (quoteChar :: rest))) = _
      rw [psb_cons c _ hq hb hlow, ih]
      rfl

theorem parseJString_encode (s rest : List Char) :
    parseJString (encodeJString s ++ rest) = some (s, rest) := by
  show parseJString (quoteChar :: ((escapeString s ++ [quoteChar]) ++ rest)) = _
  rw [List.append_assoc]
  show (if quoteChar = quoteChar then
    parseStringBody (escapeString s ++ ([quoteChar] ++ rest)) else none) = _
  rw [if_pos rfl]
  show parseStringBody (escapeString s ++ (quoteChar :: rest)) = _
  exact parseStringBody_escapeString s rest

theorem charToNat_ofNat_digit (n : Nat) (h : n < 10) :
    (Char.ofNat (48 + n)).toNat = 48 + n :=
  charToNat_ofNat (48 + n) (by omega)

theorem natDigits_all_digits : ∀ n c, c ∈ natDigits n → isDigitChar c = true := by
  intro n
  induction n using Nat.strong_induction_on with
  | _ n ih =>
    intro c hc
    rw [natDigits] at hc
    by_cases h : n < 10
    · rw [if_pos h] at hc
      rcases List.mem_singleton.mp hc with rfl
      simp [isDigitChar, charToNat_ofNat_digit n h]
      omega
    · rw [if_neg h] at hc
      rcases List.mem_append.mp hc with h1 | h1
      · exact ih (n / 10) (Nat.div_lt_self (by omega) (by omega)) c h1
      · rcases List.mem_singleton.mp h1 with rfl
        have := charToNat_ofNat_digit (n % 10) (Nat.mod_lt n (by omega))
        simp [isDigitChar, this]
        omega

theorem natDigits_foldl : ∀ n acc, (natDigits n).foldl digStep acc =
    acc * 10 ^ (natDigits n).length + n := by
  intro n
  induction n using Nat.strong_induction_on with
  | _ n ih =>
    intro acc
    rw [natDigits]
    by_cases h : n < 10
    · rw [if_pos h]
      show digStep acc (Char.ofNat (48 + n)) = acc * 10 ^ 1 + n
      rw [digStep, charToNat_ofNat_digit n h]
      ring_nf
      omega
    · rw [if_neg h]
      rw [List.foldl_append]
      rw [ih (n / 10) (Nat.div_lt_self (by omega) (by omega)) acc]
      show digStep _ _ = _
      rw [digStep, charToNat_ofNat_digit (n % 10) (Nat.mod_lt n (by omega))]
      rw [List.length_append, List.length_singleton, pow_succ]
      have hdm := Nat.div_add_mod n 10
      set L := (natDigits (n / 10)).length
      calc 10 * (acc * 10 ^ L + n / 10) + (48 + n % 10 - 48)
          = acc * (10 ^ L * 10) + (10 * (n / 10) + n % 10) := by ring_nf; omega
        _ = acc * (10 ^ L * 10) + n := by rw [hdm]

theorem parseNatAux_digits : ∀ ds rest acc, (∀ c ∈ ds, isDigitChar c = true) →
    headNotDigit rest = true →
    parseNatAux (ds ++ rest) acc = (ds.foldl digStep acc, rest) := by
  intro ds
  induction ds with
  | nil =>
    intro rest acc _ hrest
    cases rest with
    | nil => rfl
    | cons c r =>
      show parseNatAux (c :: r) acc = (acc, c :: r)
      have : isDigitChar c = false := by
        simpa [headNotDigit] using hrest
      simp [parseNatAux, this]
  | cons d ds ih =>
    intro rest acc hds hrest
    show parseNatAux (d :: (ds ++ rest)) acc = _
    have hd : isDigitChar d = true := hds d (List.mem_cons_self d ds)
    rw [parseNatAux, if_pos hd]
    rw [ih rest (digStep acc d) (fun c hc => hds c (List.mem_cons_of_mem d hc)) hrest]
    rfl

theorem natDigits_ne_nil (n : Nat) : natDigits n ≠ [] := by
  rw [natDigits]
  by_cases h : n < 10
  · rw [if_pos h]; simp
  · rw [if_neg h]; simp

theorem parseNat_natDigits (n : Nat) (rest : List Char)
    (hrest : headNotDigit rest = true) :
    parseNat (natDigits n ++ rest) = some (n, rest) := by
  cases hnd : natDigits n with
  | nil => exact absurd hnd (natDigits_ne_nil n)
  | cons d ds =>
    show parseNat (d :: (ds ++ rest)) = _
    have hd : isDigitChar d = true := by
      apply natDigits_all_digits n
      rw [hnd]
      exact List.mem_cons_self d ds
    rw [parseNat, if_pos hd]
    have : parseNatAux (d :: (ds ++ rest)) 0 = ((d :: ds).foldl digStep 0, rest) := by
      show parseNatAux ((d :: ds) ++ rest) 0 = _
      apply parseNatAux_digits (d :: ds) rest 0 _ hrest
      intro c hc
      apply natDigits_all_digits n
      rw [hnd]
      exact hc
    rw [this, ← hnd, natDigits_foldl]
    simp

theorem dataBitsOfJson_json (b : DataBits) : dataBitsOfJson (dataBitsJson b) = some b := by
  cases b <;> rfl

theorem parityOfJson_json (b : Parity) : parityOfJson (parityJson b) = some b := by
  cases b <;> rfl

theorem stopBitsOfJson_json (b : StopBits) : stopBitsOfJson (stopBitsJson b) = some b := by
  cases b <;> rfl

theorem flowControlOfJson_json (b : FlowControl) :
    flowControlOfJson (flowControlJson b) = some b := by
  cases b <;> rfl

theorem parseEnumField_encode {α : Type} (key : String) (ofJson : List Char → Option α)
    (json : List Char) (v : α) (rest : List Char) (hof : ofJson json = some v) :
    parseEnumField key ofJson ((',' :: jsonKey key) ++ (encodeJString json ++ rest)) =
      some (v, rest) := by
  unfold parseEnumField
  rw [expectLit_append]
  show Option.bind (parseJString (encodeJString json ++ rest)) _ = _
  rw [parseJString_encode]
  show Option.bind (ofJson json) _ = _
  rw [hof]
  rfl

theorem parseNat_natDigits_comma (n : Nat) (a b : List Char) :
    parseNat (natDigits n ++ ((',' :: a) ++ b)) = some (n, (',' :: a) ++ b) :=
  parseNat_natDigits n ((',' :: a) ++ b) rfl

theorem roundtrip_core (p : SerialPortInfo) (hsp : p.speed < 4294967296) :
    Option.bind (SerialPortInfo.to_json p) SerialPortInfo.from_json = some p := by
  show SerialPortInfo.from_json (String.mk (to_jsonChars p)) = some p
  show fromJsonChars (to_jsonChars p) = some p
  unfold to_jsonChars fromJsonChars
  rw [expectLit_append]
  simp only [Option.bind]
  rw [parseJString_encode]
  simp only [Option.bind]
  rw [expectLit_append]
  simp only [Option.bind]
  rw [parseNat_natDigits_comma]
  simp only [Option.bind]
  rw [if_pos hsp]
  rw [parseEnumField_encode "data_bits" dataBitsOfJson _ p.data_bits _
    (dataBitsOfJson_json p.data_bits)]
  simp only [Option.bind]
  rw [parseEnumField_encode "parity" parityOfJson _ p.parity _
    (parityOfJson_json p.parity)]
  simp only [Option.bind]
  rw [parseEnumField_encode "stop_bits" stopBitsOfJson _ p.stop_bits _
    (stopBitsOfJson_json p.stop_bits)]
  simp only [Option.bind]
  rw [parseEnumField_encode "flow_control" flowControlOfJson _ p.flow_control _
    (flowControlOfJson_json p.flow_control)]
  simp only [Option.bind]
  rw [show expectLit [braceClose] [braceClose] = some ([] : List Char) from rfl]
  simp only [Option.bind]
  simp only [if_true]


/-- C8. The port descriptor round-trips through its serialized form:
decoding the encoding of any constructible descriptor (any name, any `u32`
speed, any framing enums) gives back exactly that descriptor; decoding a
malformed input returns `none` rather than crashing (the decoder is a total
function into `Option`, shown here on a concrete garbage input); and
encoding succeeds (`isSome`) for every well-formed in-memory descriptor. -/
theorem descriptor_roundtrip :
    (∀ p : SerialPortInfo, p.speed < 4294967296 →
      Option.bind (SerialPortInfo.to_json p) SerialPortInfo.from_json = some p) ∧
    SerialPortInfo.from_json "garbage" = none ∧
    (∀ p : SerialPortInfo, (SerialPortInfo.to_json p).isSome = true) :=
  ⟨roundtrip_core, rfl, fun _ => rfl⟩

theorem descriptor_roundtrip_witness :
    Option.bind
      (SerialPortInfo.to_json ⟨"COM3", 9600, .Eight, .None, .One, .None⟩)
      SerialPortInfo.from_json = some ⟨"COM3", 9600, .Eight, .None, .One, .None⟩ :=
  descriptor_roundtrip.1 ⟨"COM3", 9600, .Eight, .None, .One, .None⟩ (by norm_num)
